import Mathlib

/-!
Verification of the 99tech assessment repository (TypeScript sources) against its
natural-language specification.

The development shallowly embeds the relevant parts of the code:

* the JavaScript value model needed by the validation middleware
  (`src/problem5/middleware/validation.middleware.ts`), with JS numbers modelled as
  `JsNumber` (either NaN or an exact rational; every numeric literal appearing in the
  claims is exactly representable, so no rounding is lost);
* the resource repository (`src/problem5/models/resource.model.ts`) over an explicit
  database state, with the SQLite behaviours the code relies on (AUTOINCREMENT row-id
  assignment, CHECK constraints, the `updated_at` trigger from
  `src/problem5/database/connection.ts`, and the default `LIKE` semantics) embedded
  as documented by SQLite;
* the HTTP handlers (`src/problem5/routes/resource.routes.ts`) and the error
  translator (`src/problem5/middleware/error.middleware.ts`);
* the three sum-to-n functions (`src/problem4/index.ts`), read at exact integer
  arithmetic.
-/

/-! ## JavaScript value model -/

/-- A JavaScript number: either `NaN` or an (exactly represented) numeric value.
All numerals used by the claims are small integers or short decimals, which doubles
represent exactly, so rationals are a faithful carrier here. -/
inductive JsNumber where
  | nan : JsNumber
  | val : ℚ → JsNumber
deriving DecidableEq, Repr

/-- JS `n < 0`: false for NaN (every comparison with NaN is false). -/
def JsNumber.ltZero : JsNumber → Bool
  | .nan => false
  | .val q => decide (q < 0)

/-- JS `n >= 0`: false for NaN. -/
def JsNumber.geZero : JsNumber → Bool
  | .nan => false
  | .val q => decide (0 ≤ q)

/-- JS `Number.isInteger(n)`: false for NaN, else integrality of the value. -/
def JsNumber.isIntegerJs : JsNumber → Bool
  | .nan => false
  | .val q => q.den == 1

/-- The subset of JavaScript values the validators can receive in a JSON body.
A missing field (JS `undefined`) is modelled as `Option.none` at the use sites. -/
inductive JsValue where
  | str : String → JsValue
  | num : JsNumber → JsValue
  | boolean : Bool → JsValue
  | null : JsValue
deriving DecidableEq, Repr

/-- JS truthiness of a (defined) value: `""`, `0`, `NaN`, `null`, `false` are falsy. -/
def JsValue.truthy : JsValue → Bool
  | .str s => s ≠ ""
  | .num .nan => false
  | .num (.val q) => decide (q ≠ 0)
  | .boolean b => b
  | .null => false

/-- JS `typeof v === 'string'`. -/
def JsValue.isString : JsValue → Bool
  | .str _ => true
  | _ => false

/-- JS `typeof v === 'number'`. -/
def JsValue.isNumber : JsValue → Bool
  | .num _ => true
  | _ => false

/-- JS `s.trim()`: strip leading and trailing whitespace (expressed over the
character list so that it evaluates by kernel reduction). -/
def jsTrim (s : String) : List Char :=
  ((s.data.dropWhile Char.isWhitespace).reverse.dropWhile Char.isWhitespace).reverse

/-- JS `v.trim().length === 0` (only ever evaluated on strings by the validators,
thanks to short-circuiting; other values give `false`). -/
def JsValue.trimEmpty : JsValue → Bool
  | .str s => (jsTrim s).length == 0
  | _ => false

/-- JS `v < 0` on a value already known to be a number (false for NaN). -/
def JsValue.ltZero : JsValue → Bool
  | .num n => n.ltZero
  | _ => false

/-- JS `!Number.isInteger(v)` negated argument (false for NaN and non-numbers). -/
def JsValue.isIntegerJs : JsValue → Bool
  | .num n => n.isIntegerJs
  | _ => false

/-! ## Validation middleware (`validation.middleware.ts`) -/

/-- The request body as seen by the validators: the five recognized fields, each
possibly absent (`undefined`). -/
structure RequestBody where
  name : Option JsValue
  description : Option JsValue
  category : Option JsValue
  price : Option JsValue
  quantity : Option JsValue
deriving DecidableEq, Repr

/-- Condition `!v || typeof v !== 'string' || v.trim().length === 0` applied to a
possibly-undefined field (the three text-field checks of `validateResource`). -/
def requiredStringInvalid : Option JsValue → Bool
  | none => true
  | some v => !v.truthy || !v.isString || v.trimEmpty

/-- Condition `price === undefined || typeof price !== 'number' || price < 0`. -/
def priceRuleViolated : Option JsValue → Bool
  | none => true
  | some v => !v.isNumber || v.ltZero

/-- Condition `quantity === undefined || typeof quantity !== 'number' || quantity < 0
|| !Number.isInteger(quantity)`. -/
def quantityRuleViolated : Option JsValue → Bool
  | none => true
  | some v => !v.isNumber || v.ltZero || !v.isIntegerJs

/-- The error list built by `validateResource`: five independent checks, each pushing
its message onto `errors`, in source order. -/
def validateResourceErrors (b : RequestBody) : List String :=
  let errors : List String := []
  let errors := if requiredStringInvalid b.name then
    errors ++ ["Name is required and must be a non-empty string"] else errors
  let errors := if requiredStringInvalid b.description then
    errors ++ ["Description is required and must be a non-empty string"] else errors
  let errors := if requiredStringInvalid b.category then
    errors ++ ["Category is required and must be a non-empty string"] else errors
  let errors := if priceRuleViolated b.price then
    errors ++ ["Price is required and must be a non-negative number"] else errors
  let errors := if quantityRuleViolated b.quantity then
    errors ++ ["Quantity is required and must be a non-negative integer"] else errors
  errors

/-- Outcome of a validation middleware: fall through to the handler, or answer
directly with a status and the collected error strings. -/
inductive ValidationOutcome where
  | pass : ValidationOutcome
  | reject (status : Nat) (errors : List String) : ValidationOutcome
deriving DecidableEq, Repr

/-- `validateResource`: respond 400 with the collected errors when any check failed,
otherwise call `next()`. -/
def validateResource (b : RequestBody) : ValidationOutcome :=
  let errors := validateResourceErrors b
  if errors.length > 0 then .reject 400 errors else .pass

/-- A creation field rule as the spec describes it: a violation predicate together
with the message reported for it. -/
structure FieldRule where
  violated : RequestBody → Bool
  message : String

/-- The five creation rules, in source order, as independent (rule, message) pairs. -/
def creationFieldRules : List FieldRule :=
  [ ⟨fun b => requiredStringInvalid b.name,
      "Name is required and must be a non-empty string"⟩,
    ⟨fun b => requiredStringInvalid b.description,
      "Description is required and must be a non-empty string"⟩,
    ⟨fun b => requiredStringInvalid b.category,
      "Category is required and must be a non-empty string"⟩,
    ⟨fun b => priceRuleViolated b.price,
      "Price is required and must be a non-negative number"⟩,
    ⟨fun b => quantityRuleViolated b.quantity,
      "Quantity is required and must be a non-negative integer"⟩ ]

/-- Spec-side reading of "applies all five rules independently and collects every
violation": the message of every violated rule, in rule order. -/
def specCollectedErrors (b : RequestBody) : List String :=
  (creationFieldRules.filter (fun r => r.violated b)).map FieldRule.message

/-- The payload `{name: "Test"}` of the C5 scenario. -/
def bodyNameOnly : RequestBody :=
  { name := some (.str "Test"), description := none, category := none,
    price := none, quantity := none }

/-! ## Problem 4: sum-to-n (`src/problem4/index.ts`), at exact integer arithmetic -/

/-- Implementation 1 (mathematical formula): `n * (n + 1) / 2` for `n >= 0`, and
`-((absN * (absN + 1)) / 2)` with `absN = Math.abs(n)` otherwise. The dividends are
always even, so exact rational division and integer division agree. -/
def sum_to_n_a (n : ℤ) : ℤ :=
  if n ≥ 0 then n * (n + 1) / 2
  else
    let absN : ℤ := |n|;
    Neg.neg (absN * (absN + 1) / 2)

/-- The loop `for (let i = lo; i <= hi; i++) sum += i` of implementation 2, as a
tail-recursive accumulator function. -/
def jsForSum (i hi acc : ℤ) : ℤ :=
  if i ≤ hi then jsForSum (i + 1) hi (acc + i) else acc
termination_by (hi + 1 - i).toNat
decreasing_by omega

/-- Implementation 2 (iterative): sums 1..n for `n >= 0`, and n..-1 for negative n. -/
def sum_to_n_b (n : ℤ) : ℤ :=
  if n ≥ 0 then jsForSum 1 n 0 else jsForSum n (-1) 0

/-- Implementation 3 (recursive). -/
def sum_to_n_c (n : ℤ) : ℤ :=
  if n = 0 then 0
  else if n > 0 then n + sum_to_n_c (n - 1)
  else n + sum_to_n_c (n + 1)
termination_by n.natAbs
decreasing_by all_goals omega

/-! ## JS numeric parsing (used by the route handlers) -/

/-- Value of a digit character under a radix (10 or 16), JS `parseInt` style. -/
def digitVal? (radix : Nat) (c : Char) : Option Nat :=
  let v : Option Nat :=
    if '0' ≤ c ∧ c ≤ '9' then some (c.toNat - '0'.toNat)
    else if 'a' ≤ c ∧ c ≤ 'f' then some (c.toNat - 'a'.toNat + 10)
    else if 'A' ≤ c ∧ c ≤ 'F' then some (c.toNat - 'A'.toNat + 10)
    else none
  match v with
  | some d => if d < radix then some d else none
  | none => none

/-- Value of the longest valid digit prefix; `none` when there is no digit. -/
def digitsValue (radix : Nat) (cs : List Char) : Option Nat :=
  let ds := cs.takeWhile (fun c => (digitVal? radix c).isSome)
  if ds.isEmpty then none
  else some (ds.foldl (fun acc c => acc * radix + ((digitVal? radix c).getD 0)) 0)

/-- JS `parseInt(s)` (radix argument omitted): skip whitespace, optional sign,
optional `0x`/`0X` hex prefix, then the longest digit prefix; `none` models `NaN`. -/
def jsParseInt (s : String) : Option Int :=
  let cs := s.data.dropWhile Char.isWhitespace
  let signed : Int × List Char :=
    match cs with
    | '-' :: rest => (-1, rest)
    | '+' :: rest => (1, rest)
    | _ => (1, cs)
  let prefixed : Nat × List Char :=
    match signed.2 with
    | '0' :: 'x' :: rest => (16, rest)
    | '0' :: 'X' :: rest => (16, rest)
    | _ => (10, signed.2)
  (digitsValue prefixed.1 prefixed.2).map (fun v => signed.1 * v)

/-- JS `parseInt` packaged as a JS number (`NaN` when no digits parse). -/
def jsParseIntNum (s : String) : JsNumber :=
  match jsParseInt s with
  | none => .nan
  | some k => .val k

/-- JS `parseFloat(s)` for plain decimal literals (optional sign, digits, optional
fraction); no claim exercises exponent forms. `NaN` when nothing parses. -/
def jsParseFloat (s : String) : JsNumber :=
  let cs := s.data.dropWhile Char.isWhitespace
  let signed : ℚ × List Char :=
    match cs with
    | '-' :: rest => (-1, rest)
    | '+' :: rest => (1, rest)
    | _ => (1, cs)
  let intPart := signed.2.takeWhile Char.isDigit
  let rest := signed.2.dropWhile Char.isDigit
  let fracPart : List Char :=
    match rest with
    | '.' :: tl => tl.takeWhile Char.isDigit
    | _ => []
  if intPart.isEmpty ∧ fracPart.isEmpty then .nan
  else
    let iv : ℚ := (intPart.foldl (fun acc c => acc * 10 + (c.toNat - '0'.toNat)) 0 : ℕ)
    let fv : ℚ := (fracPart.foldl (fun acc c => acc * 10 + (c.toNat - '0'.toNat)) 0 : ℕ)
    .val (signed.1 * (iv + fv / (10 : ℚ) ^ fracPart.length))

/-! ## Error translator (`error.middleware.ts`) -/

/-- Character-list prefix test. -/
def charsPrefixOf : List Char → List Char → Bool
  | [], _ => true
  | _ :: _, [] => false
  | a :: as, b :: bs => a == b && charsPrefixOf as bs

/-- Character-list contiguous-sublist test. -/
def charsInfixOf (needle : List Char) : List Char → Bool
  | [] => needle.isEmpty
  | b :: bs => charsPrefixOf needle (b :: bs) || charsInfixOf needle bs

/-- JS `haystack.includes(needle)`. -/
def containsSubstr (haystack needle : String) : Bool :=
  charsInfixOf needle.data haystack.data

/-- The JSON envelope produced by the centralized error handler. -/
structure ErrorResponse where
  status : Nat
  success : Bool
  error : String
  details : Option String
deriving DecidableEq, Repr

/-- `errorHandler(err, req, res, next)`: classify by message substring; `nodeEnv` is
`process.env.NODE_ENV`. -/
def errorHandler (message nodeEnv : String) : ErrorResponse :=
  if containsSubstr message "SQLITE_CONSTRAINT" then
    { status := 400, success := false, error := "Database constraint violation",
      details := some message }
  else if containsSubstr message "SQLITE_ERROR" then
    { status := 500, success := false, error := "Database error",
      details := if nodeEnv = "development" then some message else none }
  else
    { status := 500, success := false, error := "Internal server error",
      details := if nodeEnv = "development" then some message else none }

/-! ## Database state (`connection.ts` schema over an explicit state) -/

/-- A stored row of the `resources` table. Timestamps are logical clock ticks;
`price` and `quantity` are stored SQLite numbers (NOT NULL, so plain rationals). -/
structure Row where
  id : ℤ
  name : String
  description : String
  category : String
  price : ℚ
  quantity : ℚ
  created_at : Nat
  updated_at : Nat
deriving DecidableEq, Repr

/-- Database state: the rows, the AUTOINCREMENT sequence (largest id ever assigned,
per SQLite's guarantee that AUTOINCREMENT ids are monotonically increasing and never
reused), a logical clock standing for `CURRENT_TIMESTAMP`, and the connection's
`last_insert_rowid()` (0 before any insert). -/
structure Db where
  rows : List Row
  seq : ℤ
  clock : Nat
  lastRowid : ℤ
deriving DecidableEq, Repr

/-- Statement-level errors, tagged by the SQLite message class the error translator
later matches on (`SQLITE_CONSTRAINT` vs `SQLITE_ERROR`). -/
inductive SqlError where
  | constraintViolation : SqlError
  | statementError : SqlError
deriving DecidableEq, Repr

/-- The numeric value SQLite actually stores for a bound JS number: NaN has no
SQLite representation and binds as NULL. -/
def boundNumber : JsNumber → Option ℚ
  | .nan => none
  | .val q => some q

/-! ## Resource repository (`resource.model.ts`) -/

/-- The `Partial<Resource>` update payload: each recognized field independently
optional. String fields are typed strings; numeric fields are JS numbers (NaN can
reach the model, since the validators accept it). -/
structure UpdateFields where
  name : Option String
  description : Option String
  category : Option String
  price : Option JsNumber
  quantity : Option JsNumber
deriving DecidableEq, Repr

/-- `fields.length` after the five `if (updates.x !== undefined)` pushes. -/
def UpdateFields.fieldCount (u : UpdateFields) : Nat :=
  (if u.name.isSome then 1 else 0) + (if u.description.isSome then 1 else 0) +
  (if u.category.isSome then 1 else 0) + (if u.price.isSome then 1 else 0) +
  (if u.quantity.isSome then 1 else 0)

/-- Apply the supplied setters to one row; `none` when the resulting row violates a
constraint (CHECK `price >= 0`, CHECK `quantity >= 0`, or NOT NULL via a NaN bind). -/
def applyUpdateToRow (u : UpdateFields) (r : Row) : Option Row :=
  let pr : Option ℚ := match u.price with
    | none => some r.price
    | some p => boundNumber p
  let qt : Option ℚ := match u.quantity with
    | none => some r.quantity
    | some q => boundNumber q
  match pr, qt with
  | some pv, some qv =>
      if 0 ≤ pv ∧ 0 ≤ qv then
        some { r with
          name := u.name.getD r.name,
          description := u.description.getD r.description,
          category := u.category.getD r.category,
          price := pv, quantity := qv }
      else none
  | _, _ => none

/-- `UPDATE resources SET <fields> WHERE id = ?` plus the `updated_at` trigger:
every row with the given id is updated; any constraint violation aborts the whole
statement (SQLite's default ABORT), leaving the database unchanged; on success the
trigger rewrites `updated_at` of each affected row to the current timestamp, and the
reported change count is the number of matched rows (trigger-made changes are not
counted by `this.changes`). -/
def runUpdateStatement (db : Db) (id : ℤ) (u : UpdateFields) :
    Except SqlError (Nat × Db) :=
  if (db.rows.filter (fun r => r.id == id)).any
      (fun r => (applyUpdateToRow u r).isNone) then
    .error .constraintViolation
  else
    .ok ((db.rows.filter (fun r => r.id == id)).length,
      { db with
        rows := db.rows.map (fun r =>
          if r.id == id then
            { (applyUpdateToRow u r).getD r with updated_at := db.clock }
          else r),
        clock := db.clock + 1 })

/-- `ResourceModel.update`: collect the supplied fields; with zero fields return
false without issuing any statement; otherwise run the UPDATE and report
`changes > 0`; a thrown error is caught and also reported as false. -/
def ResourceModel.update (db : Db) (id : ℤ) (u : UpdateFields) : Bool × Db :=
  if u.fieldCount = 0 then (false, db)
  else
    match runUpdateStatement db id u with
    | .error _ => (false, db)
    | .ok (changes, db') => (decide (changes > 0), db')

/-- A creation payload (after `Omit<Resource, 'id' | 'created_at' | 'updated_at'>`):
the five business fields, with numeric fields as JS numbers. -/
structure CreateFields where
  name : String
  description : String
  category : String
  price : JsNumber
  quantity : JsNumber
deriving DecidableEq, Repr

/-- `INSERT INTO resources (...) VALUES (?, ?, ?, ?, ?)`: the id is assigned by
AUTOINCREMENT (`seq + 1`), the timestamps default to the current clock, and a
constraint violation (negative CHECK value or NaN binding as NULL) rejects the
statement leaving the database unchanged. -/
def runInsertStatement (db : Db) (f : CreateFields) : Except SqlError Db :=
  match boundNumber f.price, boundNumber f.quantity with
  | some pv, some qv =>
      if 0 ≤ pv ∧ 0 ≤ qv then
        let newId := db.seq + 1
        .ok { rows := db.rows ++
                [{ id := newId, name := f.name, description := f.description,
                   category := f.category, price := pv, quantity := qv,
                   created_at := db.clock, updated_at := db.clock }],
              seq := db.seq + 1, clock := db.clock + 1, lastRowid := newId }
      else .error .constraintViolation
  | _, _ => .error .constraintViolation

/-- `ResourceModel.create`: insert, then `SELECT last_insert_rowid() as id` on the
same connection (`result?.id || 0` is the identity on a numeric rowid, 0 when
absent). -/
def ResourceModel.create (db : Db) (f : CreateFields) : Except SqlError (ℤ × Db) :=
  (runInsertStatement db f).map (fun db' => (db'.lastRowid, db'))

/-- `ResourceModel.findById`: `SELECT * FROM resources WHERE id = ?` via `getQuery`,
i.e. the first matching row or absent. -/
def ResourceModel.findById (db : Db) (id : ℤ) : Option Row :=
  db.rows.find? (fun r => r.id == id)

/-- A sequence of creates executed single-threaded; each successful create
contributes its returned id, a failed one contributes nothing and leaves the
database unchanged. -/
def createMany (db : Db) : List CreateFields → List ℤ × Db
  | [] => ([], db)
  | f :: fs =>
      match ResourceModel.create db f with
      | .error _ => createMany db fs
      | .ok (id, db') =>
          let rest := createMany db' fs
          (id :: rest.1, rest.2)

/-! ## `findAll` and its SQLite LIKE semantics -/

/-- ASCII lower-casing, the case folding SQLite's default `LIKE` applies. -/
def asciiLower (c : Char) : Char :=
  if 'A' ≤ c ∧ c ≤ 'Z' then Char.ofNat (c.toNat + 32) else c

/-- SQLite `LIKE` pattern matching: `%` matches any sequence, `_` any single
character, and ordinary characters compare case-insensitively on ASCII (the
engine's default, no `case_sensitive_like` pragma is set by the code). -/
def likeMatch : List Char → List Char → Bool
  | [], [] => true
  | [], _ :: _ => false
  | p :: ps, ts =>
      if p = '%' then
        likeMatch ps ts ||
          (match ts with
           | [] => false
           | _ :: ts' => likeMatch (p :: ps) ts')
      else
        match ts with
        | [] => false
        | t :: ts' =>
            (if p = '_' then true else asciiLower p == asciiLower t) &&
              likeMatch ps ts'
termination_by ps ts => (ts.length, ps.length)
decreasing_by all_goals (simp_wf; omega)

/-- The typed filter object of `findAll` (`ResourceFilters`). -/
structure ResourceFilters where
  name : Option String
  category : Option String
  min_price : Option JsNumber
  max_price : Option JsNumber
  limit : Option JsNumber
  offset : Option JsNumber
deriving DecidableEq, Repr

/-- `if (filters.name)`: the clause `name LIKE '%' + s + '%'` is added only for a
truthy (present, non-empty) filter string. -/
def nameFilterPasses : Option String → String → Bool
  | none, _ => true
  | some s, nm => if s = "" then true else likeMatch ('%' :: (s.data ++ ['%'])) nm.data

/-- `if (filters.category)`: `category = ?` only for a truthy filter string. -/
def categoryFilterPasses : Option String → String → Bool
  | none, _ => true
  | some c, cat => if c = "" then true else cat == c

/-- `if (filters.min_price !== undefined)`: `price >= ?`; a NaN bound binds as NULL
and the comparison never holds. -/
def minPriceFilterPasses : Option JsNumber → ℚ → Bool
  | none, _ => true
  | some .nan, _ => false
  | some (.val q), p => decide (q ≤ p)

/-- `if (filters.max_price !== undefined)`: `price <= ?`. -/
def maxPriceFilterPasses : Option JsNumber → ℚ → Bool
  | none, _ => true
  | some .nan, _ => false
  | some (.val q), p => decide (p ≤ q)

/-- Conjunction of the four WHERE conditions `findAll` can emit. -/
def rowMatchesFilters (f : ResourceFilters) (r : Row) : Bool :=
  nameFilterPasses f.name r.name && categoryFilterPasses f.category r.category &&
  minPriceFilterPasses f.min_price r.price && maxPriceFilterPasses f.max_price r.price

/-- Insert a row into a list kept in descending `created_at` order (stable). -/
def insertDesc (r : Row) : List Row → List Row
  | [] => [r]
  | x :: xs => if x.created_at < r.created_at then r :: x :: xs else x :: insertDesc r xs

/-- `ORDER BY created_at DESC` as a stable insertion sort. -/
def sortByCreatedDesc : List Row → List Row
  | [] => []
  | r :: rs => insertDesc r (sortByCreatedDesc rs)

/-- The value a truthy `limit`/`offset` filter contributes (`if (filters.limit)`):
absent, NaN and 0 are all falsy and add no clause. -/
def truthyNumValue : Option JsNumber → Option ℚ
  | some (.val q) => if q = 0 then none else some q
  | _ => none

/-- `LIMIT n`: SQLite returns everything for a negative limit. -/
def applyLimitClause (n : ℤ) (rows : List Row) : List Row :=
  if n < 0 then rows else rows.take n.toNat

/-- `OFFSET m`: SQLite skips nothing for a nonpositive offset. -/
def applyOffsetClause (m : ℤ) (rows : List Row) : List Row :=
  rows.drop m.toNat

/-- `ResourceModel.findAll`: filter, order newest-first, then apply the LIMIT and
OFFSET clauses that were emitted. An `OFFSET` clause without a `LIMIT` clause is a
SQLite syntax error, and a non-integer limit or offset is a datatype error. -/
def ResourceModel.findAll (f : ResourceFilters) (db : Db) : Except SqlError (List Row) :=
  let base := (sortByCreatedDesc db.rows).filter (rowMatchesFilters f)
  match truthyNumValue f.limit, truthyNumValue f.offset with
  | none, none => .ok base
  | none, some _ => .error .statementError
  | some l, none =>
      if l.den = 1 then .ok (applyLimitClause l.num base) else .error .statementError
  | some l, some o =>
      if l.den = 1 ∧ o.den = 1 then
        .ok (applyLimitClause l.num (applyOffsetClause o.num base))
      else .error .statementError

/-! ## HTTP route handlers (`resource.routes.ts`) -/

/-- Response of `GET /api/resources/:id`, with a flag recording whether the
repository (`ResourceModel.findById`) was invoked while producing it. -/
structure SingleResponse where
  status : Nat
  success : Bool
  error : Option String
  data : Option Row
  repoCalled : Bool
deriving DecidableEq, Repr

/-- The `GET /:id` handler: `parseInt` the path parameter, answer 400 on NaN before
any repository call, else look the row up and answer 404 or 200. -/
def getResourceByIdHandler (db : Db) (idStr : String) : SingleResponse :=
  match jsParseInt idStr with
  | none =>
      { status := 400, success := false, error := some "Invalid resource ID",
        data := none, repoCalled := false }
  | some id =>
      match ResourceModel.findById db id with
      | none =>
          { status := 404, success := false, error := some "Resource not found",
            data := none, repoCalled := true }
      | some r =>
          { status := 200, success := true, error := none, data := some r,
            repoCalled := true }

/-- Spec-side reading of a "well-formed number" as a path identifier: an optional
minus sign followed by one or more decimal digits and nothing else. -/
def specWellFormedNumericId (s : String) : Bool :=
  let ds := match s.data with
    | '-' :: rest => rest
    | cs => cs
  !ds.isEmpty && ds.all (fun c => c.isDigit)

/-- The query string of `GET /api/resources`: each parameter a string when present. -/
structure ListQuery where
  name : Option String
  category : Option String
  min_price : Option String
  max_price : Option String
  limit : Option String
  offset : Option String
deriving DecidableEq, Repr

/-- JS truthiness of a possibly-undefined query string. -/
def strTruthy : Option String → Bool
  | some s => s ≠ ""
  | none => false

/-- `req.query.x ? parseFloat(req.query.x) : undefined` for the price bounds. -/
def parsedPriceParam : Option String → Option JsNumber
  | some s => if s = "" then none else some (jsParseFloat s)
  | none => none

/-- `req.query.limit ? parseInt(req.query.limit) : 50`. -/
def routeLimit : Option String → JsNumber
  | some s => if s = "" then .val 50 else jsParseIntNum s
  | none => .val 50

/-- `req.query.offset ? parseInt(req.query.offset) : 0`. -/
def routeOffset : Option String → JsNumber
  | some s => if s = "" then .val 0 else jsParseIntNum s
  | none => .val 0

/-- The `ResourceFilters` object the list handler builds from the query string. -/
def routeFilters (q : ListQuery) : ResourceFilters :=
  { name := q.name, category := q.category,
    min_price := parsedPriceParam q.min_price,
    max_price := parsedPriceParam q.max_price,
    limit := some (routeLimit q.limit),
    offset := some (routeOffset q.offset) }

/-- Outcome of the list handler: a 200 with the rows, or an error forwarded to the
centralized error translator via `next(error)`. -/
inductive ListOutcome where
  | ok (status : Nat) (rows : List Row) : ListOutcome
  | errorOut (e : SqlError) : ListOutcome
deriving DecidableEq, Repr

/-- The `GET /` handler: build filters from the query, call `findAll`, answer 200
with the rows or forward the rejection. -/
def listResourcesHandler (db : Db) (q : ListQuery) : ListOutcome :=
  match ResourceModel.findAll (routeFilters q) db with
  | .ok rows => .ok 200 rows
  | .error e => .errorOut e

/-! ## Concrete fixtures for counterexamples and witnesses -/

/-- A freshly initialized database. -/
def emptyDb : Db := { rows := [], seq := 0, clock := 0, lastRowid := 0 }

/-- A stored row with id 12. -/
def rowTwelve : Row :=
  { id := 12, name := "Gadget", description := "A gadget", category := "Tools",
    price := 5, quantity := 2, created_at := 0, updated_at := 0 }

/-- A database holding only `rowTwelve`. -/
def dbTwelve : Db := { rows := [rowTwelve], seq := 12, clock := 1, lastRowid := 12 }

/-- A stored row whose name is the lower-case string "laptop". -/
def rowLaptop : Row :=
  { id := 1, name := "laptop", description := "portable computer",
    category := "Electronics", price := 999, quantity := 3,
    created_at := 0, updated_at := 0 }

/-- A database holding only `rowLaptop`. -/
def dbLaptop : Db := { rows := [rowLaptop], seq := 1, clock := 1, lastRowid := 1 }

/-- Two rows with distinct creation times. -/
def rowAlpha : Row :=
  { id := 1, name := "alpha", description := "first", category := "cat",
    price := 1, quantity := 1, created_at := 0, updated_at := 0 }

/-- Second fixture row, created later than `rowAlpha`. -/
def rowBeta : Row :=
  { id := 2, name := "beta", description := "second", category := "cat",
    price := 2, quantity := 2, created_at := 1, updated_at := 1 }

/-- A two-row database (newest first is `rowBeta`, then `rowAlpha`). -/
def dbTwo : Db := { rows := [rowAlpha, rowBeta], seq := 2, clock := 2, lastRowid := 2 }

/-- A valid creation payload. -/
def createWidget : CreateFields :=
  { name := "Widget", description := "A widget", category := "Tools",
    price := .val 10, quantity := .val 1 }

/-- The all-absent update payload. -/
def noUpdateFields : UpdateFields :=
  { name := none, description := none, category := none, price := none,
    quantity := none }

/-- An update payload supplying only a negative price. -/
def negativePriceUpdate : UpdateFields :=
  { name := none, description := none, category := none,
    price := some (.val (-5)), quantity := none }

/-! ## Theorems -/

/-- Peel the bottom element off an integer interval. -/
theorem Icc_int_cons {a b : ℤ} (h : a ≤ b) :
    Finset.Icc a b =
      Finset.cons a (Finset.Icc (a + 1) b) (by simp [Finset.mem_Icc]) := by
  ext x
  simp only [Finset.mem_Icc, Finset.mem_cons]
  omega

/-- The iterative loop computes the interval sum added to its accumulator. -/
theorem jsForSum_eq (i hi acc : ℤ) :
    jsForSum i hi acc = acc + ∑ k ∈ Finset.Icc i hi, k := by
  induction i, hi, acc using jsForSum.induct with
  | case1 i hi acc h ih =>
      rw [jsForSum]
      simp only [h, if_pos]
      rw [ih, Icc_int_cons h, Finset.sum_cons]
      ring
  | case2 i hi acc h =>
      rw [jsForSum]
      simp only [h, if_neg, if_false]
      rw [Finset.Icc_eq_empty (by omega), Finset.sum_empty, add_zero]

/-- Gauss sum over `Icc 1 n`, stated multiplication-free of division. -/
theorem sum_Icc_one_mul_two (m : ℕ) :
    (∑ k ∈ Finset.Icc (1 : ℤ) m, k) * 2 = m * (m + 1) := by
  induction m with
  | zero => simp
  | succ p ih =>
      have h : (1 : ℤ) ≤ (p : ℤ) + 1 := by omega
      have hcast : ((p + 1 : ℕ) : ℤ) = (p : ℤ) + 1 := by push_cast; ring
      rw [hcast, show ((p : ℤ) + 1) = (p : ℤ) + 1 from rfl]
      rw [show Finset.Icc (1 : ℤ) ((p : ℤ) + 1) =
            Finset.cons ((p : ℤ) + 1) (Finset.Icc 1 (p : ℤ))
              (by simp [Finset.mem_Icc]) from by
        ext x; simp only [Finset.mem_Icc, Finset.mem_cons]; omega]
      rw [Finset.sum_cons]
      linear_combination ih

/-- Sum over `Icc (-(m+1)) (-1)`, stated free of division. -/
theorem sum_Icc_neg_mul_two (m : ℕ) :
    (∑ k ∈ Finset.Icc (-(m : ℤ) - 1) (-1), k) * 2 = -(((m : ℤ) + 1) * ((m : ℤ) + 2)) := by
  induction m with
  | zero => simp
  | succ p ih =>
      rw [show (-(((p + 1 : ℕ) : ℤ)) - 1) = (-(p : ℤ) - 1) - 1 from by push_cast; ring]
      rw [Icc_int_cons (by omega), Finset.sum_cons]
      rw [show -(p : ℤ) - 1 - 1 + 1 = -(p : ℤ) - 1 from by ring]
      push_cast
      linear_combination ih

/-- Closed forms of the recursive implementation, both signs at once. -/
theorem sum_to_n_c_closed (m : ℕ) :
    sum_to_n_c (m : ℤ) * 2 = (m : ℤ) * ((m : ℤ) + 1) ∧
    sum_to_n_c (-(m : ℤ)) * 2 = -((m : ℤ) * ((m : ℤ) + 1)) := by
  induction m with
  | zero => constructor <;> · rw [sum_to_n_c]; norm_num
  | succ p ih =>
      obtain ⟨ih1, ih2⟩ := ih
      constructor
      · rw [sum_to_n_c]
        have h0 : ¬((p + 1 : ℕ) : ℤ) = 0 := by omega
        have h1 : ((p + 1 : ℕ) : ℤ) > 0 := by omega
        simp only [h0, if_false, h1, if_true]
        rw [show ((p + 1 : ℕ) : ℤ) - 1 = (p : ℤ) from by push_cast; ring]
        push_cast
        linear_combination ih1
      · rw [sum_to_n_c]
        have h0 : ¬(-((p + 1 : ℕ) : ℤ)) = 0 := by omega
        have h1 : ¬(-((p + 1 : ℕ) : ℤ)) > 0 := by omega
        simp only [h0, if_false, h1, if_true]
        rw [show -((p + 1 : ℕ) : ℤ) + 1 = -(p : ℤ) from by push_cast; ring]
        push_cast
        linear_combination ih2

/-- C5: the creation validator applies all five field rules independently and collects
every violation (its error list is exactly the messages of the violated rules, in rule
order, never short-circuited), and on the payload `{name: "Test"}` it responds 400
with exactly the 4 error strings of the missing fields. -/
theorem validateResource_collects_all_violations :
    (∀ b : RequestBody, validateResourceErrors b = specCollectedErrors b) ∧
    validateResource bodyNameOnly =
      .reject 400 ["Description is required and must be a non-empty string",
                   "Category is required and must be a non-empty string",
                   "Price is required and must be a non-negative number",
                   "Quantity is required and must be a non-negative integer"] ∧
    (validateResourceErrors bodyNameOnly).length = 4 := by
  refine ⟨?_, by decide, by decide⟩
  intro b
  simp only [validateResourceErrors, specCollectedErrors, creationFieldRules,
    List.filter, List.map]
  by_cases h1 : requiredStringInvalid b.name <;>
    by_cases h2 : requiredStringInvalid b.description <;>
    by_cases h3 : requiredStringInvalid b.category <;>
    by_cases h4 : priceRuleViolated b.price <;>
    by_cases h5 : quantityRuleViolated b.quantity <;>
    simp [h1, h2, h3, h4, h5]

/-- C10: a payload whose price is the floating-point NaN passes the creation
validator (NaN has number type and `NaN < 0` is false), even though NaN is not a
non-negative number in the arithmetic sense (`NaN >= 0` is also false). -/
theorem nan_price_accepted_by_validator :
    validateResource
      { name := some (.str "Widget"), description := some (.str "A widget"),
        category := some (.str "Tools"), price := some (.num .nan),
        quantity := some (.num (.val 3)) } = .pass ∧
    JsNumber.geZero .nan = false := by
  exact ⟨by decide, rfl⟩

/-- C9: the three sum-to-n implementations agree on every integer (positive, zero,
or negative); for `n ≥ 0` the common value is `n * (n + 1) / 2`, and for `n < 0` it
is the sum of the integers from `n` up to `-1`. -/
theorem sum_to_n_implementations_agree (n : ℤ) :
    sum_to_n_a n = sum_to_n_b n ∧ sum_to_n_b n = sum_to_n_c n ∧
    (0 ≤ n → sum_to_n_a n = n * (n + 1) / 2) ∧
    (n < 0 → sum_to_n_a n = ∑ k ∈ Finset.Icc n (-1), k) := by
  rcases le_or_lt 0 n with hn | hn
  · obtain ⟨m, rfl⟩ := Int.eq_ofNat_of_zero_le hn
    have ha : sum_to_n_a (m : ℤ) = (m : ℤ) * ((m : ℤ) + 1) / 2 := by
      simp only [sum_to_n_a]
      rw [if_pos (show (m : ℤ) ≥ 0 by omega)]
    have hb : sum_to_n_b (m : ℤ) = ∑ k ∈ Finset.Icc (1 : ℤ) (m : ℤ), k := by
      rw [sum_to_n_b, if_pos (show (m : ℤ) ≥ 0 by omega), jsForSum_eq, zero_add]
    have hS := sum_Icc_one_mul_two m
    have hc := (sum_to_n_c_closed m).1
    refine ⟨?_, ?_, fun _ => ha, fun hneg => absurd hneg (by omega)⟩
    · rw [ha, hb]
      set S : ℤ := ∑ k ∈ Finset.Icc (1 : ℤ) (m : ℤ), k with hSdef
      generalize hx : (m : ℤ) * ((m : ℤ) + 1) = x at hS ⊢
      omega
    · rw [hb]
      set S : ℤ := ∑ k ∈ Finset.Icc (1 : ℤ) (m : ℤ), k with hSdef
      set C : ℤ := sum_to_n_c (m : ℤ) with hCdef
      generalize hx : (m : ℤ) * ((m : ℤ) + 1) = x at hS hc
      omega
  · obtain ⟨p, hp⟩ : ∃ p : ℕ, n.natAbs = p + 1 := ⟨n.natAbs - 1, by omega⟩
    have habs : |n| = (p : ℤ) + 1 := by rw [abs_of_neg hn]; omega
    have ha : sum_to_n_a n = -(((p : ℤ) + 1) * ((p : ℤ) + 2) / 2) := by
      simp only [sum_to_n_a]
      rw [if_neg (show ¬n ≥ 0 by omega), habs,
        show (p : ℤ) + 1 + 1 = (p : ℤ) + 2 from by ring]
    have hb : sum_to_n_b n = ∑ k ∈ Finset.Icc n (-1), k := by
      rw [sum_to_n_b, if_neg (show ¬n ≥ 0 by omega), jsForSum_eq, zero_add]
    have hS := sum_Icc_neg_mul_two p
    rw [show -(p : ℤ) - 1 = n from by omega] at hS
    have hc := (sum_to_n_c_closed (p + 1)).2
    push_cast at hc
    rw [show -((p : ℤ) + 1) = n from by omega,
      show (p : ℤ) + 1 + 1 = (p : ℤ) + 2 from by ring] at hc
    refine ⟨?_, ?_, fun hge => absurd hge (by omega), fun _ => ?_⟩
    · rw [ha, hb]
      set S : ℤ := ∑ k ∈ Finset.Icc n (-1), k with hSdef
      generalize hx : ((p : ℤ) + 1) * ((p : ℤ) + 2) = x at hS ⊢
      omega
    · rw [hb]
      set S : ℤ := ∑ k ∈ Finset.Icc n (-1), k with hSdef
      set C : ℤ := sum_to_n_c n with hCdef
      generalize hx : ((p : ℤ) + 1) * ((p : ℤ) + 2) = x at hS hc
      omega
    · rw [ha]
      set S : ℤ := ∑ k ∈ Finset.Icc n (-1), k with hSdef
      generalize hx : ((p : ℤ) + 1) * ((p : ℤ) + 2) = x at hS ⊢
      omega

/-- Witness for C9 at the concrete inputs 3 and -3. -/
theorem sum_to_n_implementations_agree_check :
    sum_to_n_a 3 = sum_to_n_b 3 ∧ sum_to_n_a 3 = 3 * (3 + 1) / 2 ∧
    sum_to_n_a (-3) = ∑ k ∈ Finset.Icc (-3 : ℤ) (-1), k :=
  ⟨(sum_to_n_implementations_agree 3).1,
   (sum_to_n_implementations_agree 3).2.2.1 (by decide),
   (sum_to_n_implementations_agree (-3)).2.2.2 (by decide)⟩

/-- C3 counterexample: "12abc" is not a well-formed number, yet the `GET /:id`
handler parses its numeric prefix 12, calls the repository, and answers 200 from the
row with id 12 instead of rejecting with 400. -/
theorem numeric_prefix_id_reaches_repository :
    specWellFormedNumericId "12abc" = false ∧
    (getResourceByIdHandler dbTwelve "12abc").repoCalled = true ∧
    (getResourceByIdHandler dbTwelve "12abc").status = 200 := by
  refine ⟨by decide, by decide, by decide⟩

/-- C3 (amended): for every id string on which `parseInt` yields NaN (no numeric
prefix), the `GET /:id` handler answers 400 "Invalid resource ID" and the repository
is never called; strings with a numeric prefix, such as "12abc", are parsed to that
prefix and do reach the repository. -/
theorem invalid_id_rejected_before_repository (db : Db) (s : String)
    (h : jsParseInt s = none) :
    getResourceByIdHandler db s =
      { status := 400, success := false, error := some "Invalid resource ID",
        data := none, repoCalled := false } := by
  simp [getResourceByIdHandler, h]

/-- Witness for the amended C3 at the scenario input "abc". -/
theorem invalid_id_rejected_before_repository_check :
    jsParseInt "abc" = none ∧
    getResourceByIdHandler emptyDb "abc" =
      { status := 400, success := false, error := some "Invalid resource ID",
        data := none, repoCalled := false } :=
  ⟨by decide, invalid_id_rejected_before_repository emptyDb "abc" (by decide)⟩

/-- C4 counterexample: outside development mode, an error whose message carries the
constraint-violation marker still gets its full message echoed in `details`. -/
theorem constraint_branch_leaks_details_in_production :
    ("production" ≠ "development") ∧
    (errorHandler "SQLITE_CONSTRAINT: CHECK constraint failed: resources"
        "production").details =
      some "SQLITE_CONSTRAINT: CHECK constraint failed: resources" := by
  refine ⟨by decide, by decide⟩

/-- C4 (amended): outside development mode the database-error and generic branches
suppress `details`, but the constraint-violation branch always includes the error's
message as `details`, in every mode. -/
theorem error_details_gated_outside_constraint_branch (message nodeEnv : String)
    (h : nodeEnv ≠ "development") :
    (containsSubstr message "SQLITE_CONSTRAINT" = false →
      (errorHandler message nodeEnv).details = none) ∧
    (containsSubstr message "SQLITE_CONSTRAINT" = true →
      (errorHandler message nodeEnv).details = some message) := by
  constructor <;> intro hc
  · simp only [errorHandler, hc, Bool.false_eq_true, if_false]
    split <;> simp [h]
  · simp [errorHandler, hc]

/-- Witness for the amended C4: a storage error in production mode has no details. -/
theorem error_details_gated_outside_constraint_branch_check :
    ("production" ≠ "development") ∧
    (errorHandler "SQLITE_ERROR: no such table: resources" "production").details =
      none :=
  ⟨by decide,
    (error_details_gated_outside_constraint_branch _ _ (by decide)).1 (by decide)⟩

/-- C7: an update request supplying zero recognized fields returns failure and
leaves the database object — every stored row, including its `updated_at`, and the
clock — entirely unchanged: no UPDATE statement is issued, so the auto-touch trigger
never fires. -/
theorem update_zero_fields_noop (db : Db) (id : ℤ) (u : UpdateFields)
    (h : u.name = none ∧ u.description = none ∧ u.category = none ∧
      u.price = none ∧ u.quantity = none) :
    ResourceModel.update db id u = (false, db) := by
  obtain ⟨h1, h2, h3, h4, h5⟩ := h
  simp [ResourceModel.update, UpdateFields.fieldCount, h1, h2, h3, h4, h5]

/-- Witness for C7 on a concrete stored row. -/
theorem update_zero_fields_noop_check :
    ResourceModel.update dbTwelve 12 noUpdateFields = (false, dbTwelve) :=
  update_zero_fields_noop dbTwelve 12 noUpdateFields (by decide)

/-- C1 counterexample: on a database holding a row with id 1, an update supplying
only a negative price returns false — the UPDATE statement fails its CHECK
constraint — even though a recognized field was supplied and a row with that id
exists (so the affected-row count would not have been zero). -/
theorem update_false_on_constraint_violation :
    (ResourceModel.update dbLaptop 1 negativePriceUpdate).1 = false ∧
    negativePriceUpdate.fieldCount ≠ 0 ∧
    (∃ r ∈ dbLaptop.rows, r.id = 1) := by
  refine ⟨by decide, by decide, by decide⟩

/-- C1 (amended): `ResourceModel.update` returns false exactly when zero recognized
fields are supplied, or the UPDATE statement itself fails (a constraint violation is
caught and reported as false), or no row carries the id (affected-row count zero);
in all other cases it returns true. -/
theorem update_false_iff (db : Db) (id : ℤ) (u : UpdateFields) :
    (ResourceModel.update db id u).1 = false ↔
      (u.fieldCount = 0 ∨ (∃ e, runUpdateStatement db id u = .error e) ∨
        ¬ ∃ r ∈ db.rows, r.id = id) := by
  by_cases h0 : u.fieldCount = 0
  · simp [ResourceModel.update, h0]
  · rcases hrun : runUpdateStatement db id u with e | p
    · simp [ResourceModel.update, h0, hrun]
    · obtain ⟨n, db'⟩ := p
      have hn : n = (db.rows.filter (fun r => r.id == id)).length := by
        unfold runUpdateStatement at hrun
        split at hrun
        · exact absurd hrun (by simp)
        · simp only [Except.ok.injEq, Prod.mk.injEq] at hrun
          exact hrun.1.symm
      unfold ResourceModel.update
      rw [if_neg h0, hrun]
      simp only [hn, decide_eq_false_iff_not, not_lt, Nat.le_zero,
        List.length_eq_zero, List.filter_eq_nil_iff, beq_iff_eq]
      constructor
      · intro hall
        refine Or.inr (Or.inr ?_)
        rintro ⟨r, hr, hid⟩
        exact hall r hr hid
      · rintro (hc | ⟨e, he⟩ | hno)
        · exact absurd hc h0
        · simp at he
        · intro r hr hid
          exact hno ⟨r, hr, hid⟩

/-- Inverting a successful insert: the connection's last rowid and the sequence both
become the predecessor sequence plus one. -/
theorem runInsertStatement_ok {db : Db} {f : CreateFields} {db' : Db}
    (h : runInsertStatement db f = .ok db') :
    db'.lastRowid = db.seq + 1 ∧ db'.seq = db.seq + 1 := by
  unfold runInsertStatement at h
  split at h
  · split at h
    · simp only [Except.ok.injEq] at h
      subst h
      exact ⟨rfl, rfl⟩
    · simp at h
  · simp at h

/-- The ids returned by a run of creates all exceed the starting sequence value and
are produced in strictly increasing order. -/
theorem createMany_ids (fs : List CreateFields) : ∀ db : Db,
    (∀ i ∈ (createMany db fs).1, db.seq < i) ∧
    List.Chain' (· < ·) (createMany db fs).1 := by
  induction fs with
  | nil => intro db; simp [createMany]
  | cons f fs ih =>
      intro db
      unfold createMany
      rcases hc : ResourceModel.create db f with e | p
      · simpa using ih db
      · obtain ⟨id, db'⟩ := p
        have hid : id = db.seq + 1 ∧ db'.seq = db.seq + 1 := by
          unfold ResourceModel.create at hc
          rcases hr : runInsertStatement db f with e' | db'' <;> rw [hr] at hc
          · simp [Except.map] at hc
          · simp only [Except.map, Except.ok.injEq, Prod.mk.injEq] at hc
            obtain ⟨h1, h2⟩ := hc
            obtain ⟨hl, hs⟩ := runInsertStatement_ok hr
            subst h2
            exact ⟨h1 ▸ hl, hs⟩
        obtain ⟨hid1, hseq⟩ := hid
        obtain ⟨ihall, ihchain⟩ := ih db'
        simp only [List.mem_cons, forall_eq_or_imp]
        refine ⟨⟨by omega, fun i hi => ?_⟩, ?_⟩
        · have := ihall i hi
          omega
        · rw [List.chain'_cons']
          refine ⟨fun b hb => ?_, ihchain⟩
          have hbmem : b ∈ (createMany db' fs).1 := List.mem_of_mem_head? hb
          have := ihall b hbmem
          omega

/-- C8: across any single-threaded sequence of successful creates, the returned
identifiers are strictly increasing, and (given the AUTOINCREMENT invariant that
every stored id is at most the sequence value) each returned identifier is
previously unseen: it differs from every id already in the store. -/
theorem create_ids_fresh_and_increasing (db : Db) (fs : List CreateFields)
    (h : ∀ r ∈ db.rows, r.id ≤ db.seq) :
    List.Chain' (· < ·) (createMany db fs).1 ∧
    ∀ i ∈ (createMany db fs).1, ∀ r ∈ db.rows, r.id ≠ i := by
  refine ⟨(createMany_ids fs db).2, ?_⟩
  intro i hi r hr
  have h1 := (createMany_ids fs db).1 i hi
  have h2 := h r hr
  omega

/-- Witness for C8: two creates on a fresh database return the fresh ids 1 and 2. -/
theorem create_ids_fresh_and_increasing_check :
    (∀ r ∈ emptyDb.rows, r.id ≤ emptyDb.seq) ∧
    List.Chain' (· < ·) (createMany emptyDb [createWidget, createWidget]).1 ∧
    (createMany emptyDb [createWidget, createWidget]).1 = [1, 2] :=
  ⟨by decide,
   (create_ids_fresh_and_increasing emptyDb [createWidget, createWidget] (by decide)).1,
   by decide⟩

/-- C2 counterexample: with an explicit `?limit=0`, the list handler returns the
whole two-row database — the parsed 0 is falsy, the LIMIT clause is omitted, and
the page is unlimited, not empty. -/
theorem explicit_limit_zero_returns_all_rows :
    listResourcesHandler dbTwo
      { name := none, category := none, min_price := none, max_price := none,
        limit := some "0", offset := none } = .ok 200 [rowBeta, rowAlpha] ∧
    ([rowBeta, rowAlpha] : List Row) ≠ [] := by
  refine ⟨by decide, by decide⟩

/-- C2 (amended): a parsed limit of 0 (from an explicit `?limit=0`) is falsy, so the
LIMIT clause is omitted and the handler returns the full unlimited filtered list;
omitting the limit query field entirely instead applies the default `LIMIT 50`. -/
theorem limit_zero_gives_unlimited_page (db : Db) (q : ListQuery)
    (h : q.offset = none) :
    listResourcesHandler db { q with limit := some "0" } =
      .ok 200 ((sortByCreatedDesc db.rows).filter
        (rowMatchesFilters (routeFilters { q with limit := some "0" }))) ∧
    listResourcesHandler db { q with limit := none } =
      .ok 200 (((sortByCreatedDesc db.rows).filter
        (rowMatchesFilters (routeFilters { q with limit := none }))).take 50) := by
  obtain ⟨qn, qc, qmin, qmax, qlim, qoff⟩ := q
  simp only at h
  subst h
  have h0 : routeLimit (some "0") = .val 0 := by decide
  have h50 : routeLimit none = .val 50 := rfl
  have hoff : routeOffset none = .val 0 := rfl
  constructor
  · simp only [listResourcesHandler, ResourceModel.findAll, routeFilters, h0, hoff,
      truthyNumValue]
    norm_num
  · simp only [listResourcesHandler, ResourceModel.findAll, routeFilters, h50, hoff,
      truthyNumValue]
    norm_num [applyLimitClause]
    rfl

/-- The empty pattern matches only the empty text. -/
theorem likeMatch_nil (ts : List Char) : likeMatch [] ts = true ↔ ts = [] := by
  cases ts <;> simp [likeMatch]

/-- Unfolding a leading `%` against the empty text. -/
theorem likeMatch_star_nil (ps : List Char) :
    likeMatch ('%' :: ps) [] = likeMatch ps [] := by
  rw [likeMatch]; simp

/-- Unfolding a leading `%` against a nonempty text. -/
theorem likeMatch_star_cons (ps : List Char) (t : Char) (ts : List Char) :
    likeMatch ('%' :: ps) (t :: ts) =
      (likeMatch ps (t :: ts) || likeMatch ('%' :: ps) ts) := by
  rw [likeMatch]; simp

/-- A leading `%` matches a text iff the rest of the pattern matches some suffix. -/
theorem likeStar_iff (ps ts : List Char) :
    likeMatch ('%' :: ps) ts = true ↔
      ∃ ts', ts' <:+ ts ∧ likeMatch ps ts' = true := by
  induction ts with
  | nil =>
      rw [likeMatch_star_nil]
      constructor
      · intro h; exact ⟨[], List.nil_suffix, h⟩
      · rintro ⟨ts', hs, hp⟩
        rw [List.suffix_nil.mp hs] at hp
        exact hp
  | cons t ts ih =>
      rw [likeMatch_star_cons, Bool.or_eq_true, ih]
      constructor
      · rintro (h | ⟨ts', hs, hp⟩)
        · exact ⟨t :: ts, List.suffix_rfl, h⟩
        · exact ⟨ts', hs.trans (List.suffix_cons t ts), hp⟩
      · rintro ⟨ts', hs, hp⟩
        rcases List.suffix_cons_iff.mp hs with h | h
        · subst h; exact Or.inl hp
        · exact Or.inr ⟨ts', h, hp⟩

/-- A wildcard-free pattern followed by `%` matches a text iff the pattern is a
case-(ASCII-)folded prefix of the text. -/
theorem likeLit_prefix_iff :
    ∀ (s ts : List Char), (∀ c ∈ s, c ≠ '%' ∧ c ≠ '_') →
      (likeMatch (s ++ ['%']) ts = true ↔
        s.map asciiLower <+: ts.map asciiLower) := by
  intro s
  induction s with
  | nil =>
      intro ts _
      simp only [List.nil_append, List.map_nil]
      rw [likeStar_iff]
      constructor
      · intro _; exact List.nil_prefix
      · intro _
        exact ⟨[], List.nil_suffix, (likeMatch_nil []).mpr rfl⟩
  | cons c s ih =>
      intro ts hs
      have hc := hs c (List.mem_cons_self c s)
      have hrest : ∀ x ∈ s, x ≠ '%' ∧ x ≠ '_' :=
        fun x hx => hs x (List.mem_cons_of_mem c hx)
      cases ts with
      | nil => simp [likeMatch, hc.1]
      | cons t ts' =>
          simp only [List.cons_append, List.map_cons, likeMatch, hc.1, hc.2,
            if_neg, if_false, Bool.and_eq_true, beq_iff_eq]
          rw [List.cons_prefix_cons, ih ts' hrest]

/-- SQLite `LIKE '%' + s + '%'` for wildcard-free `s` is exactly ASCII
case-insensitive substring containment. -/
theorem likeContains_iff (s ts : List Char) (hs : ∀ c ∈ s, c ≠ '%' ∧ c ≠ '_') :
    likeMatch ('%' :: (s ++ ['%'])) ts = true ↔
      s.map asciiLower <:+: ts.map asciiLower := by
  rw [likeStar_iff]
  constructor
  · rintro ⟨ts', hsuf, hm⟩
    have hp := (likeLit_prefix_iff s ts' hs).mp hm
    exact hp.isInfix.trans (hsuf.map asciiLower).isInfix
  · intro h
    obtain ⟨t₁, t₂, ht⟩ := h
    refine ⟨ts.drop t₁.length, List.drop_suffix _ _, (likeLit_prefix_iff s _ hs).mpr ?_⟩
    rw [List.append_assoc] at ht
    rw [List.map_drop, ← ht, List.drop_left]
    exact List.prefix_append _ _

/-- Membership through ordered insertion. -/
theorem mem_insertDesc (r x : Row) (l : List Row) :
    x ∈ insertDesc r l ↔ x = r ∨ x ∈ l := by
  induction l with
  | nil => simp [insertDesc]
  | cons y ys ih =>
      simp only [insertDesc]
      split
      · simp [List.mem_cons]
      · simp only [List.mem_cons, ih]
        tauto

/-- Sorting by creation time permutes nothing in or out. -/
theorem mem_sortByCreatedDesc (x : Row) (l : List Row) :
    x ∈ sortByCreatedDesc l ↔ x ∈ l := by
  induction l with
  | nil => simp [sortByCreatedDesc]
  | cons y ys ih => simp [sortByCreatedDesc, mem_insertDesc, ih]

/-- C6 counterexample: the filter string "Laptop" matches the stored name "laptop"
(SQLite `LIKE` is ASCII case-insensitive by default, and the code sets no
`case_sensitive_like` pragma), although "Laptop" is not a case-sensitive substring
of "laptop"; and the filter string "%" matches "laptop" although "laptop" does not
contain the character '%' — the filter is a LIKE pattern, not a literal substring. -/
theorem name_filter_case_and_wildcard_counterexample :
    (ResourceModel.findAll
        { name := some "Laptop", category := none, min_price := none,
          max_price := none, limit := none, offset := none } dbLaptop =
      .ok [rowLaptop]) ∧
    ¬ ("Laptop".data <:+: rowLaptop.name.data) ∧
    (ResourceModel.findAll
        { name := some "%", category := none, min_price := none,
          max_price := none, limit := none, offset := none } dbLaptop =
      .ok [rowLaptop]) ∧
    ¬ ("%".data <:+: rowLaptop.name.data) := by
  have hm1 : likeMatch ('%' :: ("Laptop".data ++ ['%'])) "laptop".data = true := by
    rw [likeContains_iff _ _ (by decide)]
    decide
  have hm2 : likeMatch ('%' :: ("%".data ++ ['%'])) "laptop".data = true := by
    rw [likeStar_iff]
    refine ⟨[], List.nil_suffix, ?_⟩
    show likeMatch ('%' :: ['%']) [] = true
    rw [likeMatch_star_nil, likeMatch_star_nil]
    simp [likeMatch]
  have hp1 : nameFilterPasses (some "Laptop") rowLaptop.name = true := by
    show (if "Laptop" = "" then true
      else likeMatch ('%' :: ("Laptop".data ++ ['%'])) rowLaptop.name.data) = true
    rw [if_neg (by decide)]
    exact hm1
  have hp2 : nameFilterPasses (some "%") rowLaptop.name = true := by
    show (if "%" = "" then true
      else likeMatch ('%' :: ("%".data ++ ['%'])) rowLaptop.name.data) = true
    rw [if_neg (by decide)]
    exact hm2
  refine ⟨?_, by decide, ?_, by decide⟩
  · have hmatch : rowMatchesFilters
        { name := some "Laptop", category := none, min_price := none,
          max_price := none, limit := none, offset := none } rowLaptop = true := by
      simp [rowMatchesFilters, categoryFilterPasses, minPriceFilterPasses,
        maxPriceFilterPasses, hp1]
    show Except.ok (List.filter _ [rowLaptop]) = Except.ok [rowLaptop]
    rw [List.filter_cons, if_pos hmatch]
    rfl
  · have hmatch : rowMatchesFilters
        { name := some "%", category := none, min_price := none,
          max_price := none, limit := none, offset := none } rowLaptop = true := by
      simp [rowMatchesFilters, categoryFilterPasses, minPriceFilterPasses,
        maxPriceFilterPasses, hp2]
    show Except.ok (List.filter _ [rowLaptop]) = Except.ok [rowLaptop]
    rw [List.filter_cons, if_pos hmatch]
    rfl

/-- C6 (amended): for every wildcard-free name filter string s, `findAll` returns
exactly the stored rows whose name contains s as an ASCII case-insensitive
substring (SQLite default `LIKE` semantics; a filter string containing `%` or `_`
instead acts as a wildcard pattern), alongside exact matching on a truthy category
filter and inclusive lower/upper bounds on price. -/
theorem findAll_name_filter_semantics (db : Db) (s : String) (cat : Option String)
    (pmin pmax : Option ℚ) (hs : ∀ c ∈ s.data, c ≠ '%' ∧ c ≠ '_')
    (hcat : cat ≠ some "") :
    ∃ rows, ResourceModel.findAll
        { name := some s, category := cat, min_price := pmin.map JsNumber.val,
          max_price := pmax.map JsNumber.val, limit := none, offset := none } db =
        .ok rows ∧
      ∀ r : Row, r ∈ rows ↔ r ∈ db.rows ∧
        (s.data.map asciiLower <:+: r.name.data.map asciiLower) ∧
        (∀ c, cat = some c → r.category = c) ∧
        (∀ q, pmin = some q → q ≤ r.price) ∧
        (∀ q, pmax = some q → r.price ≤ q) := by
  refine ⟨_, rfl, fun r => ?_⟩
  rw [List.mem_filter, mem_sortByCreatedDesc]
  have hname : nameFilterPasses (some s) r.name = true ↔
      (s.data.map asciiLower <:+: r.name.data.map asciiLower) := by
    by_cases h0 : s = ""
    · subst h0
      simp only [nameFilterPasses, if_pos rfl]
      simp [List.nil_infix]
    · show (if s = "" then true
        else likeMatch ('%' :: (s.data ++ ['%'])) r.name.data) = true ↔ _
      rw [if_neg h0, likeContains_iff _ _ hs]
  have hcatIff : categoryFilterPasses cat r.category = true ↔
      (∀ c, cat = some c → r.category = c) := by
    cases cat with
    | none => simp [categoryFilterPasses]
    | some c =>
        have hc : c ≠ "" := fun h => hcat (by rw [h])
        simp [categoryFilterPasses, hc]
  have hmin : minPriceFilterPasses (pmin.map JsNumber.val) r.price = true ↔
      (∀ q, pmin = some q → q ≤ r.price) := by
    cases pmin with
    | none => simp [minPriceFilterPasses]
    | some q => simp [minPriceFilterPasses]
  have hmax : maxPriceFilterPasses (pmax.map JsNumber.val) r.price = true ↔
      (∀ q, pmax = some q → r.price ≤ q) := by
    cases pmax with
    | none => simp [maxPriceFilterPasses]
    | some q => simp [maxPriceFilterPasses]
  simp only [rowMatchesFilters, Bool.and_eq_true]
  rw [hname, hcatIff, hmin, hmax]
  tauto

/-- Witness for the amended C6: the filter "APT" on a database holding the row
named "laptop". -/
theorem findAll_name_filter_semantics_check :
    ∃ rows, ResourceModel.findAll
        { name := some "APT", category := none,
          min_price := Option.map JsNumber.val none,
          max_price := Option.map JsNumber.val none, limit := none,
          offset := none } dbLaptop =
        .ok rows ∧
      ∀ r : Row, r ∈ rows ↔ r ∈ dbLaptop.rows ∧
        ("APT".data.map asciiLower <:+: r.name.data.map asciiLower) ∧
        (∀ c, (none : Option String) = some c → r.category = c) ∧
        (∀ q, (none : Option ℚ) = some q → q ≤ r.price) ∧
        (∀ q, (none : Option ℚ) = some q → r.price ≤ q) :=
  findAll_name_filter_semantics dbLaptop "APT" none none none (by decide) (by decide)

/-- Witness for the amended C2 on the concrete two-row database. -/
theorem limit_zero_gives_unlimited_page_check :
    listResourcesHandler dbTwo
      { name := none, category := none, min_price := none, max_price := none,
        limit := some "0", offset := none } =
      .ok 200 ((sortByCreatedDesc dbTwo.rows).filter
        (rowMatchesFilters (routeFilters
          { name := none, category := none, min_price := none, max_price := none,
            limit := some "0", offset := none }))) :=
  (limit_zero_gives_unlimited_page dbTwo
    { name := none, category := none, min_price := none, max_price := none,
      limit := some "7", offset := none } rfl).1
